import Mathlib

/-!
Verification development for the Undercover party-game session engine.

The definitions below are a shallow embedding of the TypeScript sources:
the data model (src/types/gameTypes.ts), the pure game rules
(src/services/gameLogic.ts, class GameLogic), the state-transforming
service layer (src/services/gameService.ts, class GameService), the
action layer (src/services/gameActionService.ts, class GameActionService)
and the dispatching session manager
(src/services/gameStateManager.ts, class GameStateManager).

Conventions of the embedding:
* JavaScript numbers that the code subtracts or compares against negative
  sentinels are Int; loop counters and list indices are Nat.
* Nullable values are Option; code that throws is Except String.
* Math.random draws are explicit parameters: a draw used to pick an index
  into a list of length n is a Nat taken modulo n (the source draw
  Math.floor(Math.random() * n) always lies in [0, n)).
* The module-level mutable fields GameLogic.startPlayerId and
  GameLogic.isForward are an explicit OrderCache value threaded through
  the functions that read or write them.
* The sideEffects component of action results (modal hints) carries no
  game state and no claim refers to it, so it is not modelled.
-/

set_option maxHeartbeats 1000000

namespace Undercover

/-- Player roles, the PlayerRole union type of gameTypes.ts. -/
inductive PlayerRole where
  | civilian
  | undercover
  | mrwhite
deriving DecidableEq, Repr

/-- A player, the Player interface of gameTypes.ts. -/
structure Player where
  id : Int
  name : String
  role : PlayerRole
  word : String
  cardIndex : Int
  hasRevealed : Bool
  isEliminated : Bool
deriving DecidableEq, Repr

/-- Default used to model JavaScript out-of-range indexing; the embedded
functions only read it at indices proved in range. -/
def defaultPlayer : Player :=
  { id := 0, name := "", role := PlayerRole.civilian, word := "",
    cardIndex := -1, hasRevealed := false, isEliminated := false }

instance : Inhabited Player := ⟨defaultPlayer⟩

/-- The GamePhase union type of gameTypes.ts. -/
inductive GamePhase where
  | setup
  | cardSelection
  | nameInput
  | wordReveal
  | wordTransition
  | description
  | voting
  | mrWhiteGuessStep
  | gameOver
deriving DecidableEq, Repr

/-- A civilian/undercover word pair. -/
structure WordPair where
  civilian : String
  undercover : String
deriving DecidableEq, Repr

/-- The GameState interface of gameTypes.ts. -/
structure GameState where
  phase : GamePhase
  undercoverCount : Int
  mrWhiteCount : Int
  currentPlayerIndex : Int
  selectedCard : Option Int
  players : List Player
  round : Int
  gameWords : WordPair
  playerOrder : List Int
  selectedPlayerToEliminate : Option Int
  eliminatedPlayer : Option Player
  winner : Option PlayerRole
  mrWhiteGuess : String
  showingWord : Bool
deriving DecidableEq, Repr

/-- The module-level mutable state of class GameLogic: the cached random
start player id and direction used by the turn-ordering engine. -/
structure OrderCache where
  startPlayerId : Option Int
  isForward : Bool
deriving DecidableEq, Repr

/-- GameLogic.resetRandomStart resets the cache to this value, which is
also its initial value. -/
def resetCache : OrderCache := { startPlayerId := none, isForward := true }

/-- The GameConfig interface of gameService.ts. -/
structure GameConfig where
  totalPlayers : Int
  undercover : Int
  mrWhite : Int
  civilians : Int
deriving DecidableEq, Repr

/-! ### String helpers

JavaScript's String.prototype.toLowerCase and String.prototype.trim are
modelled character-by-character (lower-casing every character, dropping
leading and trailing whitespace) with structural recursion, so that
concrete runs of the embedding can be evaluated inside proofs. -/

/-- JavaScript toLowerCase. -/
def jsToLower (s : String) : String :=
  String.mk (s.data.map Char.toLower)

/-- JavaScript trim. -/
def jsTrim (s : String) : String :=
  String.mk (((s.data.dropWhile Char.isWhitespace).reverse.dropWhile
    Char.isWhitespace).reverse)

/-! ### List helpers shared by the embedded algorithms -/

/-- In-place swap of two array slots, the destructuring assignment
used by the Fisher-Yates loops and the Mr.-White-first fix. -/
def swapL (l : List Player) (i j : Nat) : List Player :=
  (l.set i (l.getD j defaultPlayer)).set j (l.getD i defaultPlayer)

/-- One round of swaps of the Fisher-Yates loop of GameLogic:
for (let i = length - 1; i > 0; i--) swap(l[i], l[draw i]).
The counter argument is the current loop variable i. -/
def fyGo (draws : Nat → Nat) : Nat → List Player → List Player
  | 0, acc => acc
  | i + 1, acc => fyGo draws i (swapL acc (i + 1) (draws (i + 1) % (i + 2)))

/-- The Fisher-Yates shuffle used by GameLogic.generatePlayers and
GameLogic.generatePlayerOrder, with the random draws passed explicitly. -/
def fisherYates (draws : Nat → Nat) (l : List Player) : List Player :=
  fyGo draws (l.length - 1) l

/-! ### GameLogic (src/services/gameLogic.ts) -/

/-- GameLogic.getActivePlayers. -/
def activePlayers (players : List Player) : List Player :=
  players.filter (fun p => !p.isEliminated)

/-- GameLogic.checkWinConditions. (The source also computes an unused
local mrWhiteEliminated; it affects nothing and is omitted.) -/
def checkWinConditions (players : List Player) : Option PlayerRole :=
  let act := activePlayers players
  let activeCivilians := act.filter (fun p => p.role == PlayerRole.civilian)
  let activeUndercover := act.filter (fun p => p.role == PlayerRole.undercover)
  let activeMrWhite := act.filter (fun p => p.role == PlayerRole.mrwhite)
  if act.length = 1 ∧ activeMrWhite.length = 1 then
    some PlayerRole.mrwhite
  else if activeUndercover.length = 0 then
    if activeMrWhite.length > 0 then none
    else some PlayerRole.civilian
  else if activeUndercover.length ≥ activeCivilians.length ∧ activeMrWhite.length = 0 then
    some PlayerRole.undercover
  else
    none

/-- GameLogic.isCardAvailable. -/
def isCardAvailable (players : List Player) (cardIndex : Int) : Bool :=
  !(players.any (fun p => p.cardIndex == cardIndex))

/-- GameLogic.validateGameConfig result shape. -/
structure ConfigValidation where
  isValid : Bool
  reason : Option String
deriving DecidableEq, Repr

/-- GameLogic.validateGameConfig. -/
def validateGameConfig (totalPlayers undercover mrWhite : Int) : ConfigValidation :=
  let civilians := totalPlayers - undercover - mrWhite
  if totalPlayers < 3 then
    { isValid := false, reason := some "At least 3 players are required" }
  else if civilians < 2 then
    { isValid := false, reason := some "At least 2 civilians are required" }
  else if undercover + mrWhite = 0 then
    { isValid := false,
      reason := some "At least one undercover agent or Mr. White is required" }
  else if civilians ≤ undercover + mrWhite then
    { isValid := false,
      reason := some "Civilians must outnumber undercover agents and Mr. White combined" }
  else
    { isValid := true, reason := none }

/-- The role multiset built by GameLogic.generatePlayers before the
shuffle: undercover, then mrwhite, then the remaining civilians.
Counts are JavaScript numbers; a non-positive count simply runs the
corresponding push loop zero times, which toNat reproduces. -/
def mkRoles (totalPlayers undercover mrWhite : Int) : List PlayerRole :=
  List.replicate undercover.toNat PlayerRole.undercover ++
    List.replicate mrWhite.toNat PlayerRole.mrwhite ++
    List.replicate (totalPlayers - undercover - mrWhite).toNat PlayerRole.civilian

/-- The word a role receives in GameLogic.generatePlayers. -/
def wordForRole (gameWords : WordPair) (role : PlayerRole) : String :=
  match role with
  | PlayerRole.civilian => gameWords.civilian
  | PlayerRole.undercover => gameWords.undercover
  | PlayerRole.mrwhite => ""

/-- The Fisher-Yates shuffle of the role list in GameLogic.generatePlayers,
expressed through the Player shuffle by temporarily wrapping each role. -/
def shuffleRoles (draws : Nat → Nat) (roles : List PlayerRole) : List PlayerRole :=
  (fisherYates draws (roles.map (fun r => { defaultPlayer with role := r }))).map
    (fun p => p.role)

/-- GameLogic.generatePlayers. -/
def generatePlayers (totalPlayers undercover mrWhite : Int) (gameWords : WordPair)
    (draws : Nat → Nat) : List Player :=
  let roles := shuffleRoles draws (mkRoles totalPlayers undercover mrWhite)
  (List.range totalPlayers.toNat).map (fun i =>
    let role := roles.getD i PlayerRole.civilian
    { id := (i : Int) + 1, name := "", role := role,
      word := wordForRole gameWords role,
      cardIndex := -1, hasRevealed := false, isEliminated := false })

/-- GameLogic.generatePlayerOrder: ids 1..N, Fisher-Yates shuffled.
Embedded through the Player shuffle by wrapping each id. -/
def generatePlayerOrder (totalPlayers : Nat) (draws : Nat → Nat) : List Int :=
  (fisherYates draws ((List.range totalPlayers).map
    (fun i => { defaultPlayer with id := (i : Int) + 1 }))).map (fun p => p.id)

/-- GameLogic.canPlayerBeEliminated lives on GameService in the source;
kept here with the other roster queries. -/
def canPlayerBeEliminated (s : GameState) (playerId : Int) : Bool :=
  match s.players.find? (fun p => p.id == playerId) with
  | some p => !p.isEliminated
  | none => false

/-- One step of a stable insertion sort by ascending id. -/
def insertById (p : Player) : List Player → List Player
  | [] => [p]
  | q :: t => if p.id ≤ q.id then p :: q :: t else q :: insertById p t

/-- Sorting step of GameLogic.getDescriptionPhaseOrder: the stable
ascending sort of the roster by id performed by
sort((a, b) => a.id - b.id), embedded as a stable insertion sort. -/
def sortById (players : List Player) : List Player :=
  players.foldr insertById []

/-- Start-player choice of GameLogic.getDescriptionPhaseOrder when the
cache is empty: a uniform draw from the non-Mr.-White players, or from
all players when every player is Mr. White. -/
def chooseStartId (players : List Player) (draw : Nat) : Int :=
  let nonMrWhitePlayers := players.filter (fun p => p.role != PlayerRole.mrwhite)
  if nonMrWhitePlayers.length = 0 then
    (players.getD (draw % players.length) defaultPlayer).id
  else
    (nonMrWhitePlayers.getD (draw % nonMrWhitePlayers.length) defaultPlayer).id

/-- Cache-filling step of GameLogic.getDescriptionPhaseOrder: on the
first use of a round, draw a start player and a direction. -/
def fillCache (players : List Player) (cache : OrderCache)
    (startDraw : Nat) (dirDraw : Bool) : OrderCache :=
  match cache.startPlayerId with
  | some _ => cache
  | none => { startPlayerId := some (chooseStartId players startDraw), isForward := dirDraw }

/-- The wraparound walk of GameLogic.getDescriptionPhaseOrder: starting
at startIndex, take length steps forward or backward through the sorted
list. Backward, the source computes index = startIndex - i and adds
length when that is negative; for 0 <= i < length and startIndex < length
that value is exactly (startIndex + length - i) % length. -/
def rotationFrom (sorted : List Player) (startIndex : Nat) (isForward : Bool) : List Player :=
  let n := sorted.length
  (List.range n).map (fun i =>
    if isForward then sorted.getD ((startIndex + i) % n) defaultPlayer
    else sorted.getD ((startIndex + n - i) % n) defaultPlayer)

/-- Final step of GameLogic.getDescriptionPhaseOrder: if Mr. White came
first, swap them with the first non-Mr.-White player in the order. -/
def fixMrWhiteFirst (result : List Player) : List Player :=
  match result with
  | [] => []
  | p0 :: _ =>
    if p0.role == PlayerRole.mrwhite then
      match result.findIdx? (fun p => p.role != PlayerRole.mrwhite) with
      | some j => if j > 0 then swapL result 0 j else result
      | none => result
    else result

/-- Deterministic core of GameLogic.getDescriptionPhaseOrder, given the
(filled) cached start id and direction: sort by id, locate the start
player (falling back to the plain sorted list when the cached id is not
in the roster), rotate, and fix a leading Mr. White. -/
def descriptionOrderCore (players : List Player) (startId : Int) (isForward : Bool) :
    List Player :=
  let sortedPlayers := sortById players
  match sortedPlayers.findIdx? (fun p => p.id == startId) with
  | none => sortedPlayers
  | some startIndex => fixMrWhiteFirst (rotationFrom sortedPlayers startIndex isForward)

/-- GameLogic.getDescriptionPhaseOrder: returns the order and the cache
as left by the call (filled on first use, otherwise unchanged). -/
def getDescriptionPhaseOrder (players : List Player) (cache : OrderCache)
    (startDraw : Nat) (dirDraw : Bool) : List Player × OrderCache :=
  if players.isEmpty then ([], cache)
  else
    let c := fillCache players cache startDraw dirDraw
    (descriptionOrderCore players (c.startPlayerId.getD 0) c.isForward, c)

/-- GameLogic.getVotingPhaseOrder: description order with the eliminated
players moved, in order, to the tail. -/
def getVotingPhaseOrder (players : List Player) (cache : OrderCache)
    (startDraw : Nat) (dirDraw : Bool) : List Player × OrderCache :=
  if players.isEmpty then ([], cache)
  else
    let r := getDescriptionPhaseOrder players cache startDraw dirDraw
    (r.1.filter (fun p => !p.isEliminated) ++ r.1.filter (fun p => p.isEliminated), r.2)

/-! ### GameService (src/services/gameService.ts) -/

/-- Writing through updatedPlayers[idx] in the source: JavaScript throws
a TypeError when the index is out of range (the element is undefined), so
out-of-range writes become an error here. -/
def setPlayerAt (players : List Player) (idx : Int) (f : Player → Player) :
    Except String (List Player) :=
  if 0 ≤ idx ∧ idx.toNat < players.length then
    Except.ok (players.set idx.toNat (f (players.getD idx.toNat defaultPlayer)))
  else
    Except.error "TypeError: player index out of range"

/-- GameService.initializeGame. WordService.getRandomUnplayedWord is the
external word provider; its answer is the availableWords argument. -/
def initializeGame (config : GameConfig) (availableWords : Option WordPair)
    (roleDraws orderDraws : Nat → Nat) : Except String GameState :=
  let validation := validateGameConfig config.totalPlayers config.undercover config.mrWhite
  if !validation.isValid then
    Except.error (validation.reason.getD "")
  else
    match availableWords with
    | none => Except.error "No available word pairs"
    | some gameWords =>
      let players := generatePlayers config.totalPlayers config.undercover config.mrWhite
        gameWords roleDraws
      let playerOrder := generatePlayerOrder config.totalPlayers.toNat orderDraws
      Except.ok
        { phase := GamePhase.cardSelection,
          undercoverCount := config.undercover,
          mrWhiteCount := config.mrWhite,
          currentPlayerIndex := 0,
          selectedCard := none,
          players := players,
          round := 1,
          gameWords := gameWords,
          playerOrder := playerOrder,
          selectedPlayerToEliminate := none,
          eliminatedPlayer := none,
          winner := none,
          mrWhiteGuess := "",
          showingWord := false }

/-- GameService.assignPlayerToCard. The source sets the name only when
playerName is truthy, that is, present and non-empty. -/
def assignPlayerToCard (s : GameState) (playerIndex cardIndex : Int)
    (playerName : Option String) : Except String GameState := do
  if !isCardAvailable s.players cardIndex then
    throw "Card is already taken"
  let ps ← setPlayerAt s.players playerIndex (fun p => { p with cardIndex := cardIndex })
  let ps ←
    match playerName with
    | some nm =>
      if nm ≠ "" then
        setPlayerAt ps playerIndex (fun p => { p with name := jsTrim nm })
      else
        pure ps
    | none => pure ps
  return { s with players := ps, selectedCard := some cardIndex }

/-- GameService.markPlayerRevealed. -/
def markPlayerRevealed (s : GameState) (playerIndex : Int) : Except String GameState := do
  let ps ← setPlayerAt s.players playerIndex (fun p => { p with hasRevealed := true })
  return { s with players := ps }

/-- GameService.eliminatePlayer. -/
def eliminatePlayerById (s : GameState) (playerId : Int) : Except String GameState :=
  match s.players.findIdx? (fun p => p.id == playerId) with
  | none => Except.error "Player not found"
  | some idx =>
    let ps := s.players.set idx { s.players.getD idx defaultPlayer with isEliminated := true }
    Except.ok { s with
      players := ps,
      eliminatedPlayer := some (ps.getD idx defaultPlayer),
      selectedPlayerToEliminate := none }

/-- GameService.advanceToNextPlayer. -/
def advanceToNextPlayer (s : GameState) (totalPlayers : Int) : GameState :=
  if s.currentPlayerIndex < totalPlayers - 1 then
    { s with currentPlayerIndex := s.currentPlayerIndex + 1, selectedCard := none }
  else
    { s with phase := GamePhase.description, currentPlayerIndex := 0, selectedCard := none }

/-- GameService.startNewRound. Role counts are recounted from the current
roster, a fresh word pair is bound, roles are re-dealt, and each player
keeps id and name with elimination/reveal/card state cleared. The source
neither resets the winner field nor calls GameLogic.resetRandomStart.
(The spread also writes an isReady flag that the Player type does not
declare; it is dead data and not modelled.) -/
def startNewRound (s : GameState) (availableWords : Option WordPair)
    (roleDraws : Nat → Nat) : Except String GameState :=
  match availableWords with
  | none => Except.error "No available word pairs for new round"
  | some gameWords =>
    let totalPlayers := (s.players.length : Int)
    let undercoverCount :=
      ((s.players.filter (fun p => p.role == PlayerRole.undercover)).length : Int)
    let mrWhiteCount :=
      ((s.players.filter (fun p => p.role == PlayerRole.mrwhite)).length : Int)
    let newPlayers := generatePlayers totalPlayers undercoverCount mrWhiteCount
      gameWords roleDraws
    let updatedPlayers := s.players.enum.map (fun pr =>
      { newPlayers.getD pr.1 defaultPlayer with
        id := pr.2.id, name := pr.2.name,
        isEliminated := false, hasRevealed := false, cardIndex := -1 })
    Except.ok { s with
      phase := GamePhase.cardSelection,
      round := s.round + 1,
      currentPlayerIndex := 0,
      selectedCard := none,
      players := updatedPlayers,
      gameWords := gameWords,
      selectedPlayerToEliminate := none,
      eliminatedPlayer := none,
      mrWhiteGuess := "" }

/-- GameService.checkAndUpdateWinConditions. -/
def checkAndUpdateWinConditions (s : GameState) : GameState :=
  match checkWinConditions s.players with
  | some winner => { s with phase := GamePhase.gameOver, winner := some winner }
  | none => s

/-- GameService.processMrWhiteGuess: a trimmed case-insensitive match
against the civilian word makes Mr. White the winner; any other guess
makes the civilians the winner. Either way the phase becomes game-over. -/
def processMrWhiteGuess (s : GameState) (guess : String) : GameState :=
  let normalizedGuess := jsTrim (jsToLower guess)
  let normalizedCivilianWord := jsTrim (jsToLower s.gameWords.civilian)
  if normalizedGuess == normalizedCivilianWord then
    { s with
      phase := GamePhase.gameOver, winner := some PlayerRole.mrwhite,
      mrWhiteGuess := guess }
  else
    { s with
      phase := GamePhase.gameOver, winner := some PlayerRole.civilian,
      mrWhiteGuess := guess }

/-- GameService.validateGameState result shape. -/
structure StateValidation where
  isValid : Bool
  errors : List String
deriving DecidableEq, Repr

/-- The phases GameService.validateGameState accepts. -/
def validPhases : List GamePhase :=
  [GamePhase.setup, GamePhase.cardSelection, GamePhase.description,
   GamePhase.voting, GamePhase.gameOver]

/-- GameService.validateGameState. -/
def validateGameState (s : GameState) : StateValidation :=
  let errors :=
    (if !(validPhases.contains s.phase) then ["Invalid phase"] else []) ++
    (if s.players.length = 0 then ["No players in game"] else []) ++
    (if s.currentPlayerIndex < 0 ∨ (s.players.length : Int) ≤ s.currentPlayerIndex then
      ["Invalid current player index"] else []) ++
    (if s.round < 1 then ["Invalid round number"] else [])
  { isValid := errors.length = 0, errors := errors }

/-- GameService.resetGame: the canonical empty setup state. -/
def resetGame : GameState :=
  { phase := GamePhase.setup,
    undercoverCount := 0,
    mrWhiteCount := 0,
    currentPlayerIndex := 0,
    selectedCard := none,
    players := [],
    round := 1,
    gameWords := { civilian := "", undercover := "" },
    playerOrder := [],
    selectedPlayerToEliminate := none,
    eliminatedPlayer := none,
    winner := none,
    mrWhiteGuess := "",
    showingWord := false }

/-- The transition table of GameService.getValidTransitions. -/
def validTransitions : List (GamePhase × GamePhase) :=
  [(GamePhase.setup, GamePhase.cardSelection),
   (GamePhase.cardSelection, GamePhase.description),
   (GamePhase.description, GamePhase.voting),
   (GamePhase.voting, GamePhase.description),
   (GamePhase.voting, GamePhase.gameOver),
   (GamePhase.description, GamePhase.gameOver),
   (GamePhase.gameOver, GamePhase.setup),
   (GamePhase.gameOver, GamePhase.cardSelection)]

/-- GameService.canTransition. -/
def canTransition (fromPhase toPhase : GamePhase) : Bool :=
  validTransitions.any (fun t => t.1 == fromPhase && t.2 == toPhase)

/-! ### GameActionService (src/services/gameActionService.ts) -/

/-- The GameActionResult interface, without the modal side-effect hints
(see the header note). -/
structure GameActionResult where
  success : Bool
  newState : Option GameState
  error : Option String
deriving DecidableEq, Repr

/-- Wrapping of a try/catch around a throwing GameService call: a thrown
message becomes a failure result. -/
def catchToResult (r : Except String GameState) : GameActionResult :=
  match r with
  | Except.ok ns => { success := true, newState := some ns, error := none }
  | Except.error e => { success := false, newState := none, error := some e }

/-- GameActionService.selectCard. -/
def selectCardAction (s : GameState) (cardIndex : Int) (playerName : Option String) :
    GameActionResult :=
  if !isCardAvailable s.players cardIndex then
    { success := false, newState := none, error := some "Card is already taken" }
  else
    catchToResult (assignPlayerToCard s s.currentPlayerIndex cardIndex playerName)

/-- GameActionService.submitPlayerName. -/
def submitPlayerNameAction (s : GameState) (playerName : String) : GameActionResult :=
  if jsTrim playerName == "" then
    { success := false, newState := none, error := some "Player name cannot be empty" }
  else
    match s.selectedCard with
    | none => { success := false, newState := none, error := some "No card selected" }
    | some selCard =>
      catchToResult (do
        let ps ← setPlayerAt s.players s.currentPlayerIndex
          (fun p => { p with name := jsTrim playerName, cardIndex := selCard })
        return { s with players := ps })

/-- GameActionService.revealWordNext. The manager always calls it without
the optional totalPlayers argument, so the effective total is the roster
size. -/
def revealWordNextAction (s : GameState) (totalPlayers : Option Int) : GameActionResult :=
  match s.selectedCard with
  | none => { success := false, newState := none, error := some "No card selected" }
  | some selCard =>
    catchToResult (do
      let ns ← markPlayerRevealed s s.currentPlayerIndex
      let ns ←
        if s.round > 1 then do
          let ps ← setPlayerAt ns.players s.currentPlayerIndex
            (fun p => { p with cardIndex := selCard })
          pure { ns with players := ps }
        else
          pure ns
      let effectiveTotalPlayers := totalPlayers.getD (s.players.length : Int)
      if s.currentPlayerIndex < effectiveTotalPlayers - 1 then
        pure (advanceToNextPlayer ns effectiveTotalPlayers)
      else
        pure { ns with
          phase := GamePhase.description, currentPlayerIndex := 0, selectedCard := none })

/-- GameActionService.selectPlayerForElimination. -/
def selectPlayerForEliminationAction (s : GameState) (playerId : Int) : GameActionResult :=
  if !canPlayerBeEliminated s playerId then
    { success := false, newState := none, error := some "Player cannot be eliminated" }
  else
    { success := true,
      newState := some { s with selectedPlayerToEliminate := some playerId },
      error := none }

/-- GameActionService.eliminatePlayer. The source guard is the JavaScript
truthiness test !gameState.selectedPlayerToEliminate, which rejects both
null and the id 0. -/
def eliminatePlayerAction (s : GameState) : GameActionResult :=
  if s.selectedPlayerToEliminate.getD 0 == 0 then
    { success := false, newState := none, error := some "No player selected for elimination" }
  else
    catchToResult (do
      let ns ← eliminatePlayerById s (s.selectedPlayerToEliminate.getD 0)
      return checkAndUpdateWinConditions ns)

/-- GameActionService.confirmElimination. -/
def confirmEliminationAction (s : GameState) : GameActionResult :=
  if s.winner.isSome then
    { success := true, newState := some { s with phase := GamePhase.gameOver }, error := none }
  else
    let eliminatedUndercover :=
      match s.eliminatedPlayer with
      | some p => p.role == PlayerRole.undercover
      | none => false
    let activeMrWhite := (activePlayers s.players).find? (fun p => p.role == PlayerRole.mrwhite)
    if eliminatedUndercover && activeMrWhite.isSome then
      { success := true, newState := some s, error := none }
    else
      let ns := checkAndUpdateWinConditions s
      let ns := if ns.winner.isSome then ns else { ns with phase := GamePhase.description }
      { success := true, newState := some ns, error := none }

/-- GameActionService.processMrWhiteGuess. -/
def processMrWhiteGuessAction (s : GameState) (guess : String) : GameActionResult :=
  if jsTrim guess == "" then
    { success := false, newState := none, error := some "Guess cannot be empty" }
  else
    { success := true, newState := some (processMrWhiteGuess s guess), error := none }

/-- GameActionService.startNewGame. -/
def startNewGameAction (config : Option GameConfig) (availableWords : Option WordPair)
    (roleDraws orderDraws : Nat → Nat) : GameActionResult :=
  match config with
  | none => { success := false, newState := none, error := some "Game configuration is required" }
  | some cfg => catchToResult (initializeGame cfg availableWords roleDraws orderDraws)

/-- GameActionService.startNewRound. -/
def startNewRoundAction (s : GameState) (availableWords : Option WordPair)
    (roleDraws : Nat → Nat) : GameActionResult :=
  catchToResult (startNewRound s availableWords roleDraws)

/-- GameActionService.resetGame. -/
def resetGameAction : GameActionResult :=
  { success := true, newState := some resetGame, error := none }

/-- GameActionService.transitionToPhase. -/
def transitionToPhaseAction (s : GameState) (targetPhase : GamePhase) : GameActionResult :=
  if !canTransition s.phase targetPhase then
    { success := false, newState := none,
      error := some "Cannot transition to the requested phase" }
  else if targetPhase == GamePhase.setup then
    resetGameAction
  else
    let ns := { s with phase := targetPhase }
    let ns :=
      if targetPhase == GamePhase.description || targetPhase == GamePhase.voting then
        { ns with selectedPlayerToEliminate := none }
      else ns
    { success := true, newState := some ns, error := none }

/-- GameActionService.refreshWords. -/
def refreshWordsAction (s : GameState) (availableWords : Option WordPair) : GameActionResult :=
  match availableWords with
  | none => { success := false, newState := none, error := some "No available word pairs" }
  | some newWords =>
    let updatedPlayers := s.players.map (fun p =>
      match p.role with
      | PlayerRole.civilian => { p with word := newWords.civilian }
      | PlayerRole.undercover => { p with word := newWords.undercover }
      | PlayerRole.mrwhite => p)
    { success := true,
      newState := some { s with gameWords := newWords, players := updatedPlayers },
      error := none }

/-! ### GameStateManager.executeAction (src/services/gameStateManager.ts) -/

/-- The action vocabulary of the string-keyed switch in
GameStateManager.executeAction, as a tagged union with its payloads.
The unknownAction case models every string outside the table. -/
inductive Action where
  | selectCard (cardIndex : Int) (playerName : Option String)
  | submitPlayerName (playerName : String)
  | revealWordNext
  | selectPlayerForElimination (playerId : Int)
  | eliminatePlayer
  | confirmElimination
  | processMrWhiteGuess (guess : String)
  | startNewGame (config : Option GameConfig)
  | startNewRound
  | resetGame
  | transitionToPhase (targetPhase : GamePhase)
  | refreshWords
  | unknownAction (name : String)
deriving DecidableEq, Repr

/-- GameActionService.validateAction result shape. -/
structure ActionValidation where
  isValid : Bool
  reason : Option String
deriving DecidableEq, Repr

/-- GameActionService.validateAction: reject when the current state fails
GameService.validateGameState, then apply the per-action phase checks
(which the source defines only for selectCard and eliminatePlayer). -/
def validateAction (s : GameState) (a : Action) : ActionValidation :=
  let v := validateGameState s
  if !v.isValid then
    { isValid := false,
      reason := some ("Invalid game state: " ++ String.intercalate ", " v.errors) }
  else
    match a with
    | Action.selectCard _ _ =>
      if s.phase != GamePhase.cardSelection then
        { isValid := false, reason := some "Card selection not allowed in current phase" }
      else { isValid := true, reason := none }
    | Action.eliminatePlayer =>
      if s.phase != GamePhase.voting then
        { isValid := false, reason := some "Player elimination not allowed in current phase" }
      else { isValid := true, reason := none }
    | _ => { isValid := true, reason := none }

/-- The environment a dispatch call runs in: the word provider's answer
and the random draws consumed by role dealing and order shuffling. -/
structure Env where
  availableWords : Option WordPair
  roleDraws : Nat → Nat
  orderDraws : Nat → Nat

/-- The switch statement of GameStateManager.executeAction, routing an
action to the GameActionService handler with the arguments the manager
passes. -/
def dispatchAction (env : Env) (s : GameState) (a : Action) : GameActionResult :=
  match a with
  | Action.selectCard cardIndex playerName => selectCardAction s cardIndex playerName
  | Action.submitPlayerName n => submitPlayerNameAction s n
  | Action.revealWordNext => revealWordNextAction s none
  | Action.selectPlayerForElimination playerId => selectPlayerForEliminationAction s playerId
  | Action.eliminatePlayer => eliminatePlayerAction s
  | Action.confirmElimination => confirmEliminationAction s
  | Action.processMrWhiteGuess g => processMrWhiteGuessAction s g
  | Action.startNewGame cfg => startNewGameAction cfg env.availableWords env.roleDraws env.orderDraws
  | Action.startNewRound => startNewRoundAction s env.availableWords env.roleDraws
  | Action.resetGame => resetGameAction
  | Action.transitionToPhase ph => transitionToPhaseAction s ph
  | Action.refreshWords => refreshWordsAction s env.availableWords
  | Action.unknownAction name =>
    { success := false, newState := none, error := some ("Unknown action type: " ++ name) }

/-- What one GameStateManager.executeAction call leaves behind: the
returned result, the authoritative state, and the GameLogic order cache.
No branch of the dispatch calls GameLogic.resetRandomStart or the order
getters, so the cache always passes through unchanged. -/
structure ManagerOutcome where
  result : GameActionResult
  state : GameState
  cache : OrderCache
deriving DecidableEq, Repr

/-- GameStateManager.executeAction: validate first; on success with a new
state, commit it via setState; otherwise keep the old state. -/
def executeAction (env : Env) (s : GameState) (cache : OrderCache) (a : Action) :
    ManagerOutcome :=
  let v := validateAction s a
  if !v.isValid then
    { result := { success := false, newState := none, error := v.reason },
      state := s, cache := cache }
  else
    let result := dispatchAction env s a
    match result.success, result.newState with
    | true, some ns => { result := result, state := ns, cache := cache }
    | _, _ => { result := result, state := s, cache := cache }

/-! ### Specification-side definitions

winConditionSpec restates the win-condition claim in the spec's own words,
to be compared with the embedded checkWinConditions. -/

/-- The win evaluator as the specification words it: mrwhite exactly when
a single active player remains and that player is Mr. White; otherwise no
winner yet when the undercover are gone but a Mr. White is still active;
otherwise civilian when the undercover are gone; otherwise undercover when
the active undercover at least match the active civilians with no active
Mr. White; otherwise no winner. -/
def winConditionSpec (players : List Player) : Option PlayerRole :=
  let act := activePlayers players
  if act.length = 1 ∧ ∀ p ∈ act, p.role = PlayerRole.mrwhite then
    some PlayerRole.mrwhite
  else if (act.filter (fun p => p.role == PlayerRole.undercover)).length = 0 ∧
      0 < (act.filter (fun p => p.role == PlayerRole.mrwhite)).length then
    none
  else if (act.filter (fun p => p.role == PlayerRole.undercover)).length = 0 then
    some PlayerRole.civilian
  else if (act.filter (fun p => p.role == PlayerRole.civilian)).length ≤
        (act.filter (fun p => p.role == PlayerRole.undercover)).length ∧
      (act.filter (fun p => p.role == PlayerRole.mrwhite)).length = 0 then
    some PlayerRole.undercover
  else
    none

/-! ### Concrete fixtures used by counterexamples and witnesses -/

/-- A four-player roster for the wrong-guess scenario: two active
civilians, an active undercover, and an eliminated Mr. White — a position
where the elimination-based evaluator says the game continues. -/
def guessRoster : List Player :=
  [{ id := 1, name := "Ana", role := PlayerRole.civilian, word := "apple",
     cardIndex := 0, hasRevealed := true, isEliminated := false },
   { id := 2, name := "Ben", role := PlayerRole.undercover, word := "orange",
     cardIndex := 1, hasRevealed := true, isEliminated := false },
   { id := 3, name := "Cam", role := PlayerRole.mrwhite, word := "",
     cardIndex := 2, hasRevealed := true, isEliminated := true },
   { id := 4, name := "Dee", role := PlayerRole.civilian, word := "apple",
     cardIndex := 3, hasRevealed := true, isEliminated := false }]

/-- Voting-phase state in which the eliminated Mr. White submits a guess. -/
def guessState : GameState :=
  { phase := GamePhase.voting,
    undercoverCount := 1,
    mrWhiteCount := 1,
    currentPlayerIndex := 0,
    selectedCard := none,
    players := guessRoster,
    round := 1,
    gameWords := { civilian := "apple", undercover := "orange" },
    playerOrder := [1, 2, 3, 4],
    selectedPlayerToEliminate := none,
    eliminatedPlayer := some (guessRoster.getD 2 defaultPlayer),
    winner := none,
    mrWhiteGuess := "",
    showingWord := false }

/-- A finished game: civilians already won, phase game-over. -/
def finishedRoster : List Player :=
  [{ id := 1, name := "Ana", role := PlayerRole.civilian, word := "apple",
     cardIndex := 0, hasRevealed := true, isEliminated := false },
   { id := 2, name := "Ben", role := PlayerRole.civilian, word := "apple",
     cardIndex := 1, hasRevealed := true, isEliminated := false },
   { id := 3, name := "Cam", role := PlayerRole.undercover, word := "orange",
     cardIndex := 2, hasRevealed := true, isEliminated := true }]

/-- Game-over state from which "continue with same players" restarts. -/
def finishedState : GameState :=
  { phase := GamePhase.gameOver,
    undercoverCount := 1,
    mrWhiteCount := 0,
    currentPlayerIndex := 0,
    selectedCard := none,
    players := finishedRoster,
    round := 1,
    gameWords := { civilian := "apple", undercover := "orange" },
    playerOrder := [1, 2, 3],
    selectedPlayerToEliminate := none,
    eliminatedPlayer := some (finishedRoster.getD 2 defaultPlayer),
    winner := some PlayerRole.civilian,
    mrWhiteGuess := "",
    showingWord := false }

/-- Valid mid-game state in the description phase. -/
def describingState : GameState :=
  { phase := GamePhase.description,
    undercoverCount := 1,
    mrWhiteCount := 1,
    currentPlayerIndex := 0,
    selectedCard := none,
    players := guessRoster,
    round := 1,
    gameWords := { civilian := "apple", undercover := "orange" },
    playerOrder := [1, 2, 3, 4],
    selectedPlayerToEliminate := none,
    eliminatedPlayer := none,
    winner := none,
    mrWhiteGuess := "",
    showingWord := false }

/-- Two-player roster whose sorted order starts with a Mr. White. -/
def staleCacheRoster : List Player :=
  [{ id := 1, name := "Ana", role := PlayerRole.mrwhite, word := "",
     cardIndex := 0, hasRevealed := true, isEliminated := false },
   { id := 2, name := "Ben", role := PlayerRole.civilian, word := "apple",
     cardIndex := 1, hasRevealed := true, isEliminated := false }]

/-- An order cache left over from an earlier roster: player 3 no longer
exists. -/
def staleCache : OrderCache := { startPlayerId := some 3, isForward := true }

/-- Environment whose word provider has one fresh pair and whose random
draws are all zero. -/
def testEnv : Env :=
  { availableWords := some { civilian := "banana", undercover := "strawberry" },
    roleDraws := fun _ => 0,
    orderDraws := fun _ => 0 }

/-! ### Helper lemmas about the list operations of the embedding -/

lemma getD_eq_getElem (l : List Player) (i : Nat) (d : Player) (h : i < l.length) :
    l.getD i d = l[i] := by
  simp [List.getD, List.getElem?_eq_getElem h]

lemma getD_mem (l : List Player) (i : Nat) (d : Player) (h : i < l.length) :
    l.getD i d ∈ l := by
  rw [getD_eq_getElem l i d h]
  exact List.getElem_mem h

lemma swapL_length (l : List Player) (i j : Nat) : (swapL l i j).length = l.length := by
  simp [swapL]

/-- Replacing slot j by a and pulling the old occupant to the front is a
permutation of pushing a to the front. -/
lemma cons_set_perm (l : List Player) (j : Nat) (hj : j < l.length) (a : Player) :
    List.Perm ((l.getD j defaultPlayer) :: l.set j a) (a :: l) := by
  induction l generalizing j with
  | nil => simp at hj
  | cons b t ih =>
    cases j with
    | zero => simpa using List.Perm.swap a b t
    | succ j =>
      have hj' : j < t.length := by simpa using hj
      have h1 : (b :: t).getD (j + 1) defaultPlayer :: (b :: t).set (j + 1) a
          = t.getD j defaultPlayer :: b :: t.set j a := by simp
      rw [h1]
      exact ((List.Perm.swap b (t.getD j defaultPlayer) (t.set j a)).trans
        (List.Perm.cons b (ih j hj'))).trans (List.Perm.swap a b t)


/-- Swapping two in-range slots permutes the list. -/
lemma swapL_perm (l : List Player) (i j : Nat) (hi : i < l.length) (hj : j < l.length) :
    List.Perm (swapL l i j) l := by
  induction l generalizing i j with
  | nil => simp at hi
  | cons a t ih =>
    match i, j with
    | 0, 0 => simp [swapL]
    | 0, j + 1 =>
      have hj' : j < t.length := by simpa using hj
      have : swapL (a :: t) 0 (j + 1) = t.getD j defaultPlayer :: t.set j a := by
        simp [swapL]
      rw [this]
      exact cons_set_perm t j hj' a
    | i + 1, 0 =>
      have hi' : i < t.length := by simpa using hi
      have : swapL (a :: t) (i + 1) 0 = t.getD i defaultPlayer :: t.set i a := by
        simp [swapL]
      rw [this]
      exact cons_set_perm t i hi' a
    | i + 1, j + 1 =>
      have hi' : i < t.length := by simpa using hi
      have hj' : j < t.length := by simpa using hj
      have : swapL (a :: t) (i + 1) (j + 1) = a :: swapL t i j := by
        simp [swapL]
      rw [this]
      exact List.Perm.cons a (ih i j hi' hj')

/-- Each Fisher-Yates pass permutes the list. -/
lemma fyGo_perm (draws : Nat → Nat) (i : Nat) (l : List Player) (h : i < l.length) :
    List.Perm (fyGo draws i l) l := by
  induction i generalizing l with
  | zero => simp [fyGo]
  | succ i ih =>
    have hj : draws (i + 1) % (i + 2) < l.length :=
      lt_of_le_of_lt (Nat.le_of_lt_succ (Nat.mod_lt _ (by omega))) h
    have hswap : List.Perm (swapL l (i + 1) (draws (i + 1) % (i + 2))) l :=
      swapL_perm l (i + 1) _ h hj
    have hlen : (swapL l (i + 1) (draws (i + 1) % (i + 2))).length = l.length :=
      swapL_length l _ _
    have hi : i < (swapL l (i + 1) (draws (i + 1) % (i + 2))).length := by omega
    exact (ih _ hi).trans hswap

/-- The embedded Fisher-Yates shuffle permutes its input. -/
lemma fisherYates_perm (draws : Nat → Nat) (l : List Player) :
    List.Perm (fisherYates draws l) l := by
  cases l with
  | nil => simp [fisherYates, fyGo]
  | cons a t =>
    exact fyGo_perm draws _ _ (by simp)

lemma rotationFrom_length (l : List Player) (s : Nat) (fwd : Bool) :
    (rotationFrom l s fwd).length = l.length := by
  simp [rotationFrom]

/-- The forward walk is a rotation. -/
lemma rotationFrom_fwd_eq_rotate (l : List Player) (s : Nat) :
    rotationFrom l s true = l.rotate s := by
  apply List.ext_getElem
  · simp [rotationFrom]
  · intro i h1 h2
    have hn : 0 < l.length := by
      simp only [List.length_rotate] at h2
      omega
    have hmod : (s + i) % l.length < l.length := Nat.mod_lt _ hn
    simp only [rotationFrom, List.getElem_map, List.getElem_range, if_pos,
      List.getElem_rotate]
    rw [getD_eq_getElem _ _ _ hmod]
    congr 1
    rw [Nat.add_comm]

/-- The backward walk is the reverse of a rotation. -/
lemma rotationFrom_bwd_eq (l : List Player) (s : Nat) (hs : s < l.length) :
    rotationFrom l s false = (l.rotate (s + 1)).reverse := by
  apply List.ext_getElem
  · simp [rotationFrom]
  · intro i h1 h2
    have hn : 0 < l.length := by omega
    have hi : i < l.length := by
      simpa [rotationFrom] using h1
    have hmod : (s + l.length - i) % l.length < l.length := Nat.mod_lt _ hn
    have harg : s + l.length - i = l.length - 1 - i + (s + 1) := by omega
    simp only [rotationFrom, List.getElem_map, List.getElem_range,
      List.getElem_reverse, List.getElem_rotate, List.length_rotate, Bool.false_eq_true,
      if_false]
    rw [getD_eq_getElem _ _ _ hmod]
    congr 1
    rw [harg]

/-- Either walk permutes the sorted roster. -/
lemma rotationFrom_perm (l : List Player) (s : Nat) (fwd : Bool) (hs : s < l.length) :
    List.Perm (rotationFrom l s fwd) l := by
  cases fwd with
  | true => rw [rotationFrom_fwd_eq_rotate]; exact List.rotate_perm l s
  | false =>
    rw [rotationFrom_bwd_eq l s hs]
    exact (List.reverse_perm _).trans (List.rotate_perm l (s + 1))

lemma insertById_perm (p : Player) (l : List Player) :
    List.Perm (insertById p l) (p :: l) := by
  induction l with
  | nil => exact List.Perm.refl _
  | cons q t ih =>
    simp only [insertById]
    by_cases h : p.id ≤ q.id
    · rw [if_pos h]
    · rw [if_neg h]
      exact (List.Perm.cons q ih).trans (List.Perm.swap p q t)

lemma sortById_perm (players : List Player) : List.Perm (sortById players) players := by
  induction players with
  | nil => exact List.Perm.refl _
  | cons p t ih =>
    exact (insertById_perm p (sortById t)).trans (List.Perm.cons p ih)

/-- The Mr.-White-first fix only swaps two elements, so it permutes. -/
lemma fixMrWhiteFirst_perm (l : List Player) : List.Perm (fixMrWhiteFirst l) l := by
  cases l with
  | nil => exact List.Perm.refl _
  | cons p0 rest =>
    simp only [fixMrWhiteFirst]
    by_cases h0 : (p0.role == PlayerRole.mrwhite) = true
    · rw [if_pos h0]
      cases hf : (p0 :: rest).findIdx? (fun p => p.role != PlayerRole.mrwhite) with
      | none => exact List.Perm.refl _
      | some j =>
        show List.Perm (if j > 0 then swapL (p0 :: rest) 0 j else p0 :: rest) (p0 :: rest)
        by_cases hj0 : j > 0
        · rw [if_pos hj0]
          have hj : j < (p0 :: rest).length :=
            (List.findIdx?_eq_some_iff_findIdx_eq.mp hf).1
          exact swapL_perm _ 0 j (by simp) hj
        · rw [if_neg hj0]
    · rw [if_neg h0]

/-- Head of a front swap. -/
lemma swapL_headD_zero (l : List Player) (j : Nat) (hj0 : 0 < j) (hj : j < l.length) :
    (swapL l 0 j).headD defaultPlayer = l.getD j defaultPlayer := by
  cases l with
  | nil => simp at hj
  | cons p0 rest =>
    cases j with
    | zero => omega
    | succ j => simp [swapL]

/-- After the fix, the head is not Mr. White whenever some player is not. -/
lemma fixMrWhiteFirst_headD (l : List Player) (hne : l ≠ [])
    (hex : ∃ p ∈ l, p.role ≠ PlayerRole.mrwhite) :
    ((fixMrWhiteFirst l).headD defaultPlayer).role ≠ PlayerRole.mrwhite := by
  cases l with
  | nil => exact absurd rfl hne
  | cons p0 rest =>
    simp only [fixMrWhiteFirst]
    by_cases h0 : (p0.role == PlayerRole.mrwhite) = true
    · rw [if_pos h0]
      have hexb : ∃ x, x ∈ p0 :: rest ∧ ((fun p => p.role != PlayerRole.mrwhite) x) = true := by
        obtain ⟨p, hp, hr⟩ := hex
        exact ⟨p, hp, by simpa using hr⟩
      have hf := List.findIdx?_eq_some_of_exists hexb
      rw [hf]
      obtain ⟨hjlt, hpj, hmin⟩ := List.findIdx?_eq_some_iff_getElem.mp hf
      have hj0 : (p0 :: rest).findIdx (fun p => p.role != PlayerRole.mrwhite) ≠ 0 := by
        intro hz
        have hpj' := List.findIdx?_of_eq_some hf
        rw [hz] at hpj'
        simp only [List.getElem?_cons_zero, bne_iff_ne, ne_eq] at hpj'
        exact hpj' (by simpa using h0)
      show (((if (p0 :: rest).findIdx (fun p => p.role != PlayerRole.mrwhite) > 0 then
          swapL (p0 :: rest) 0 ((p0 :: rest).findIdx (fun p => p.role != PlayerRole.mrwhite))
        else p0 :: rest)).headD defaultPlayer).role ≠ PlayerRole.mrwhite
      rw [if_pos (Nat.pos_of_ne_zero hj0)]
      rw [swapL_headD_zero _ _ (Nat.pos_of_ne_zero hj0) hjlt]
      rw [getD_eq_getElem _ _ _ hjlt]
      simpa using hpj
    · rw [if_neg h0]
      simpa using h0

lemma descriptionOrderCore_perm (players : List Player) (sid : Int) (fwd : Bool) :
    List.Perm (descriptionOrderCore players sid fwd) players := by
  simp only [descriptionOrderCore]
  cases hf : (sortById players).findIdx? (fun p => p.id == sid) with
  | none => exact sortById_perm players
  | some si =>
    have hsi : si < (sortById players).length :=
      (List.findIdx?_eq_some_iff_findIdx_eq.mp hf).1
    exact ((fixMrWhiteFirst_perm _).trans
      (rotationFrom_perm _ si fwd hsi)).trans (sortById_perm players)

/-- When the cached start id is an id of the roster, the produced order
never begins with Mr. White (as long as some player is not Mr. White). -/
lemma descriptionOrderCore_headD (players : List Player) (sid : Int) (fwd : Bool)
    (hmem : ∃ p ∈ players, p.id = sid)
    (hnw : ∃ p ∈ players, p.role ≠ PlayerRole.mrwhite) :
    ((descriptionOrderCore players sid fwd).headD defaultPlayer).role ≠
      PlayerRole.mrwhite := by
  have hmem' : ∃ x, x ∈ sortById players ∧ ((fun p => p.id == sid) x) = true := by
    obtain ⟨p, hp, hid⟩ := hmem
    exact ⟨p, (sortById_perm players).mem_iff.mpr hp, by simpa using hid⟩
  have hf := List.findIdx?_eq_some_of_exists hmem'
  simp only [descriptionOrderCore]
  rw [hf]
  have hsi : (sortById players).findIdx (fun p => p.id == sid) <
      (sortById players).length :=
    (List.findIdx?_eq_some_iff_findIdx_eq.mp hf).1
  have hperm : List.Perm (rotationFrom (sortById players)
      ((sortById players).findIdx (fun p => p.id == sid)) fwd) players :=
    (rotationFrom_perm _ _ fwd hsi).trans (sortById_perm players)
  apply fixMrWhiteFirst_headD
  · intro hnil
    obtain ⟨p, hp, _⟩ := hnw
    rw [hnil] at hperm
    exact absurd (hperm.symm.mem_iff.mp hp) (List.not_mem_nil p)
  · obtain ⟨p, hp, hr⟩ := hnw
    exact ⟨p, hperm.symm.mem_iff.mp hp, hr⟩

lemma chooseStartId_mem (players : List Player) (hne : players ≠ []) (k : Nat) :
    ∃ p ∈ players, p.id = chooseStartId players k := by
  simp only [chooseStartId]
  by_cases h : (players.filter (fun p => p.role != PlayerRole.mrwhite)).length = 0
  · rw [if_pos h]
    have hlen : 0 < players.length := List.length_pos.mpr hne
    exact ⟨players.getD (k % players.length) defaultPlayer,
      getD_mem _ _ _ (Nat.mod_lt _ hlen), rfl⟩
  · rw [if_neg h]
    have hlen : 0 < (players.filter (fun p => p.role != PlayerRole.mrwhite)).length :=
      Nat.pos_of_ne_zero h
    exact ⟨_, List.mem_of_mem_filter (getD_mem _ _ _ (Nat.mod_lt _ hlen)), rfl⟩

/-- The full description-order getter always permutes the roster. -/
lemma getDescriptionPhaseOrder_perm (players : List Player) (cache : OrderCache)
    (startDraw : Nat) (dirDraw : Bool) :
    List.Perm (getDescriptionPhaseOrder players cache startDraw dirDraw).1 players := by
  simp only [getDescriptionPhaseOrder]
  by_cases he : players.isEmpty
  · rw [if_pos he, List.isEmpty_iff.mp he]
  · rw [if_neg he]
    exact descriptionOrderCore_perm players _ _

/-- On a one-element active list, the Mr.-White filter has length one
exactly when that element is Mr. White. -/
lemma singleton_mrwhite_iff (act : List Player) (h : act.length = 1) :
    (act.filter (fun p => p.role == PlayerRole.mrwhite)).length = 1 ↔
      ∀ p ∈ act, p.role = PlayerRole.mrwhite := by
  obtain ⟨p, rfl⟩ := List.length_eq_one.mp h
  cases hr : p.role <;> simp [hr]

/-! ### Claim theorems -/

/-- Claim C1 (code_bug evaluation). The spec says a wrong Mr. White guess
falls through to the elimination-based evaluator with Mr. White removed,
leaving the game running when an undercover is still active. In this
concrete position (two active civilians, one active undercover, Mr. White
eliminated) the guess "banana" differs from the civilian word, the
elimination evaluator returns no winner, yet the code ends the game with
winner civilian. -/
theorem C1_wrong_guess_ends_game_civilian :
    jsTrim (jsToLower guessState.gameWords.civilian) ≠ jsTrim (jsToLower "banana") ∧
    (∃ p ∈ guessState.players, p.role = PlayerRole.undercover ∧ p.isEliminated = false) ∧
    (∃ p ∈ guessState.players, p.role = PlayerRole.mrwhite ∧ p.isEliminated = true) ∧
    checkWinConditions guessState.players = none ∧
    (processMrWhiteGuess guessState "banana").winner = some PlayerRole.civilian ∧
    (processMrWhiteGuess guessState "banana").phase = GamePhase.gameOver ∧
    (processMrWhiteGuessAction guessState "banana").newState =
      some (processMrWhiteGuess guessState "banana") := by decide

/-- Claim C2 (code_bug evaluation). The invariant winner non-null implies
phase game-over is broken by startNewRound: from a committed game-over
state with winner civilian, the dispatched startNewRound action succeeds
and commits a card-selection state that still carries winner civilian. -/
theorem C2_new_round_keeps_winner :
    (executeAction testEnv finishedState resetCache Action.startNewRound).result.success
      = true ∧
    finishedState.winner = some PlayerRole.civilian ∧
    (executeAction testEnv finishedState resetCache Action.startNewRound).state.winner =
      some PlayerRole.civilian ∧
    (executeAction testEnv finishedState resetCache Action.startNewRound).state.phase =
      GamePhase.cardSelection := by decide

/-- Claim C3 counterexample. processMrWhiteGuess is dispatched during the
description phase, where the claim says it must fail and leave the state
untouched; instead it succeeds and commits a different state. -/
theorem C3_counterexample :
    describingState.phase = GamePhase.description ∧
    (executeAction testEnv describingState resetCache
      (Action.processMrWhiteGuess "banana")).result.success = true ∧
    (executeAction testEnv describingState resetCache
      (Action.processMrWhiteGuess "banana")).state ≠ describingState := by decide

/-- Claim C3 as amended: the dispatcher phase-checks only selectCard
(which requires card selection) and eliminatePlayer (which requires
voting); those two do fail, before any mutation, when requested in any
other phase, and the old state is retained. -/
theorem C3_phase_checks_select_and_eliminate (env : Env) (s : GameState)
    (cache : OrderCache) :
    (∀ (ci : Int) (nm : Option String), s.phase ≠ GamePhase.cardSelection →
      (executeAction env s cache (Action.selectCard ci nm)).result.success = false ∧
      (executeAction env s cache (Action.selectCard ci nm)).state = s) ∧
    (s.phase ≠ GamePhase.voting →
      (executeAction env s cache Action.eliminatePlayer).result.success = false ∧
      (executeAction env s cache Action.eliminatePlayer).state = s) := by
  constructor
  · intro ci nm hph
    unfold executeAction validateAction
    by_cases hv : (validateGameState s).isValid
    · simp only [hv, Bool.not_true, Bool.false_eq_true, if_false]
      have hbne : (s.phase != GamePhase.cardSelection) = true := by
        simpa using hph
      simp [hbne]
    · simp only [Bool.not_eq_true] at hv
      simp [hv]
  · intro hph
    unfold executeAction validateAction
    by_cases hv : (validateGameState s).isValid
    · simp only [hv, Bool.not_true, Bool.false_eq_true, if_false]
      have hbne : (s.phase != GamePhase.voting) = true := by
        simpa using hph
      simp [hbne]
    · simp only [Bool.not_eq_true] at hv
      simp [hv]

/-- Witness for the amended claim C3, at a concrete description-phase
state: eliminatePlayer fails there and the state is retained. -/
theorem C3_witness :
    (executeAction testEnv describingState resetCache
      Action.eliminatePlayer).result.success = false ∧
    (executeAction testEnv describingState resetCache
      Action.eliminatePlayer).state = describingState :=
  (C3_phase_checks_select_and_eliminate testEnv describingState resetCache).2 (by decide)

/-- Claim C4 (code_bug evaluation). On the dispatched startNewRound from a
game-over state, ids and names are preserved, the per-role counts are
preserved, elimination/reveal/card state is reset, the round increments
and the phase returns to card selection — but the turn-ordering cache is
NOT reset: the stale cache value passes through unchanged. -/
theorem C4_new_round_resets_roster_not_cache :
    (executeAction testEnv finishedState staleCache Action.startNewRound).result.success
      = true ∧
    (executeAction testEnv finishedState staleCache Action.startNewRound).cache =
      staleCache ∧
    staleCache ≠ resetCache ∧
    (executeAction testEnv finishedState staleCache Action.startNewRound).state.round =
      finishedState.round + 1 ∧
    (executeAction testEnv finishedState staleCache Action.startNewRound).state.players.map
        (fun p => (p.id, p.name)) =
      finishedState.players.map (fun p => (p.id, p.name)) ∧
    ((executeAction testEnv finishedState staleCache Action.startNewRound).state.players.filter
        (fun p => p.role == PlayerRole.undercover)).length =
      (finishedState.players.filter (fun p => p.role == PlayerRole.undercover)).length ∧
    (∀ p ∈ (executeAction testEnv finishedState staleCache Action.startNewRound).state.players,
      p.isEliminated = false ∧ p.hasRevealed = false ∧ p.cardIndex = -1) := by decide

/-- Claim C5. checkWinConditions computes exactly the evaluator the
specification describes: one of civilian, undercover, mrwhite or null,
with mrwhite exactly when a single active player remains and is Mr.
White, then the undercover-gone cases, then the undercover-majority case,
else no winner. -/
theorem C5_win_evaluator_refines_spec (players : List Player) :
    checkWinConditions players = winConditionSpec players := by
  have hkey : ((activePlayers players).length = 1 ∧
      ∀ p ∈ activePlayers players, p.role = PlayerRole.mrwhite) ↔
      ((activePlayers players).length = 1 ∧
      (List.filter (fun p => p.role == PlayerRole.mrwhite)
        (activePlayers players)).length = 1) := by
    constructor
    · rintro ⟨h1, hall⟩
      exact ⟨h1, (singleton_mrwhite_iff _ h1).mpr hall⟩
    · rintro ⟨h1, hf⟩
      exact ⟨h1, (singleton_mrwhite_iff _ h1).mp hf⟩
  simp only [checkWinConditions, winConditionSpec, hkey]
  split_ifs with h1 h2 h3 h4 h5 <;> first | rfl | tauto

/-- Claim C6 counterexample. With a stale cached start id that is not in
the roster, the getter takes the sorted-list fallback, whose first
element here is Mr. White although a civilian exists — against the
claim's for-every-cache first-speaker guarantee. -/
theorem C6_counterexample :
    staleCacheRoster ≠ [] ∧
    (∃ p ∈ staleCacheRoster, p.role ≠ PlayerRole.mrwhite) ∧
    ((getDescriptionPhaseOrder staleCacheRoster staleCache 0 true).1.headD
      defaultPlayer).role = PlayerRole.mrwhite := by decide

/-- Claim C6 as amended: for every non-empty roster and every cache, the
description order is a permutation of the roster; and whenever the cache
is unset or its start id belongs to the roster, the first speaker is
never Mr. White as long as some player is not Mr. White. -/
theorem C6_description_order_permutation (players : List Player) (cache : OrderCache)
    (startDraw : Nat) (dirDraw : Bool) (hne : players ≠ []) :
    List.Perm (getDescriptionPhaseOrder players cache startDraw dirDraw).1 players ∧
    ((cache.startPlayerId = none ∨ ∃ p ∈ players, some p.id = cache.startPlayerId) →
      (∃ p ∈ players, p.role ≠ PlayerRole.mrwhite) →
      ((getDescriptionPhaseOrder players cache startDraw dirDraw).1.headD
        defaultPlayer).role ≠ PlayerRole.mrwhite) := by
  refine ⟨getDescriptionPhaseOrder_perm players cache startDraw dirDraw, ?_⟩
  intro hcache hnw
  have he : players.isEmpty = false := by
    cases players with
    | nil => exact absurd rfl hne
    | cons a t => rfl
  simp only [getDescriptionPhaseOrder, he, Bool.false_eq_true, if_false]
  rcases hc : cache.startPlayerId with _ | sid
  · have hfill : fillCache players cache startDraw dirDraw =
        { startPlayerId := some (chooseStartId players startDraw),
          isForward := dirDraw } := by
      simp [fillCache, hc]
    rw [hfill]
    exact descriptionOrderCore_headD players _ _
      (chooseStartId_mem players hne startDraw) hnw
  · have hfill : fillCache players cache startDraw dirDraw = cache := by
      simp [fillCache, hc]
    rw [hfill, hc]
    simp only [Option.getD_some]
    rcases hcache with hnone | ⟨p, hp, hpid⟩
    · rw [hc] at hnone
      cases hnone
    · rw [hc] at hpid
      have hpid' : p.id = sid := by
        injection hpid
      exact descriptionOrderCore_headD players sid _ ⟨p, hp, hpid'⟩ hnw

/-- Witness for the amended claim C6 at a concrete two-player roster with
an empty cache. -/
theorem C6_witness :
    List.Perm (getDescriptionPhaseOrder staleCacheRoster resetCache 0 true).1
      staleCacheRoster ∧
    ((getDescriptionPhaseOrder staleCacheRoster resetCache 0 true).1.headD
      defaultPlayer).role ≠ PlayerRole.mrwhite := by
  have h := C6_description_order_permutation staleCacheRoster resetCache 0 true (by decide)
  exact ⟨h.1, h.2 (Or.inl rfl) (by decide)⟩

/-- Claim C7. The voting order is the description order partitioned into
the active block followed by the eliminated block, each keeping its
relative order (stated through filter, which preserves relative order by
construction); with nobody eliminated the two orders coincide. -/
theorem C7_voting_order_partition (players : List Player) (cache : OrderCache)
    (startDraw : Nat) (dirDraw : Bool) :
    (getVotingPhaseOrder players cache startDraw dirDraw).1 =
      ((getDescriptionPhaseOrder players cache startDraw dirDraw).1.filter
        (fun p => !p.isEliminated)) ++
      ((getDescriptionPhaseOrder players cache startDraw dirDraw).1.filter
        (fun p => p.isEliminated)) ∧
    ((∀ p ∈ players, p.isEliminated = false) →
      (getVotingPhaseOrder players cache startDraw dirDraw).1 =
        (getDescriptionPhaseOrder players cache startDraw dirDraw).1) := by
  have hpart : (getVotingPhaseOrder players cache startDraw dirDraw).1 =
      ((getDescriptionPhaseOrder players cache startDraw dirDraw).1.filter
        (fun p => !p.isEliminated)) ++
      ((getDescriptionPhaseOrder players cache startDraw dirDraw).1.filter
        (fun p => p.isEliminated)) := by
    by_cases he : players.isEmpty
    · simp [getVotingPhaseOrder, getDescriptionPhaseOrder, he]
    · simp only [getVotingPhaseOrder, getDescriptionPhaseOrder, he, Bool.false_eq_true,
        if_false]
  refine ⟨hpart, ?_⟩
  intro hall
  rw [hpart]
  have hmem : ∀ p ∈ (getDescriptionPhaseOrder players cache startDraw dirDraw).1,
      p.isEliminated = false := by
    intro p hp
    exact hall p
      ((getDescriptionPhaseOrder_perm players cache startDraw dirDraw).mem_iff.mp hp)
  have h1 : (getDescriptionPhaseOrder players cache startDraw dirDraw).1.filter
      (fun p => !p.isEliminated) =
      (getDescriptionPhaseOrder players cache startDraw dirDraw).1 := by
    apply List.filter_eq_self.mpr
    intro p hp
    simp [hmem p hp]
  have h2 : (getDescriptionPhaseOrder players cache startDraw dirDraw).1.filter
      (fun p => p.isEliminated) = [] := by
    apply List.filter_eq_nil_iff.mpr
    intro p hp
    simp [hmem p hp]
  rw [h1, h2, List.append_nil]

/-- Witness for claim C7: on a roster with nobody eliminated, the voting
order round-trips to the description order. -/
theorem C7_witness :
    (getVotingPhaseOrder staleCacheRoster staleCache 0 true).1 =
      (getDescriptionPhaseOrder staleCacheRoster staleCache 0 true).1 :=
  (C7_voting_order_partition staleCacheRoster staleCache 0 true).2 (by decide)

/-- Claim C8. For nonnegative role counts, validateGameConfig accepts
exactly when the derived civilian count is at least two, at least one
special role exists, and civilians strictly outnumber the special roles
(the total-players test rejects nothing further); every rejection carries
a reason. -/
theorem C8_config_validation_iff (t u m : Int) (hu : 0 ≤ u) (hm : 0 ≤ m) :
    ((validateGameConfig t u m).isValid = true ↔
      2 ≤ t - u - m ∧ 1 ≤ u + m ∧ u + m < t - u - m) ∧
    ((validateGameConfig t u m).isValid = false →
      (validateGameConfig t u m).reason.isSome = true) := by
  simp only [validateGameConfig]
  split_ifs with h1 h2 h3 h4 <;> simp <;> omega

/-- Witness for claim C8 at the accepted configuration of five players
with one undercover and one Mr. White. -/
theorem C8_witness : (validateGameConfig 5 1 1).isValid = true :=
  (C8_config_validation_iff 5 1 1 (by decide) (by decide)).1.mpr (by decide)

/-- Claim C9. Whenever a dispatched action reports failure, the manager
commits nothing: the authoritative state (and the ordering cache) after
the call equals the state before it. -/
theorem C9_failed_action_leaves_state (env : Env) (s : GameState) (cache : OrderCache)
    (a : Action) (h : (executeAction env s cache a).result.success = false) :
    (executeAction env s cache a).state = s ∧
    (executeAction env s cache a).cache = cache := by
  unfold executeAction at *
  by_cases hv : (validateAction s a).isValid
  · simp only [hv, Bool.not_true, Bool.false_eq_true, if_false] at *
    rcases hres : dispatchAction env s a with ⟨succ, newSt, err⟩
    cases succ <;> cases newSt <;> simp_all
  · simp only [Bool.not_eq_true] at hv
    simp [hv]

/-- Witness for claim C9: an unknown action fails on a valid state and
leaves it untouched. -/
theorem C9_witness :
    (executeAction testEnv describingState resetCache
      (Action.unknownAction "bogus")).state = describingState ∧
    (executeAction testEnv describingState resetCache
      (Action.unknownAction "bogus")).cache = resetCache :=
  C9_failed_action_leaves_state testEnv describingState resetCache
    (Action.unknownAction "bogus") (by decide)

/-- Claim C10. From the canonical empty setup state produced by
resetGame, every action dispatched through executeAction fails and
commits nothing — validateGameState rejects any state with an empty
roster, and executeAction validates before dispatching. -/
theorem C10_reset_state_rejects_all_actions :
    (∀ (env : Env) (cache : OrderCache) (a : Action),
      (executeAction env resetGame cache a).result.success = false ∧
      (executeAction env resetGame cache a).state = resetGame) ∧
    (∀ s : GameState, s.players = [] → (validateGameState s).isValid = false) := by
  constructor
  · intro env cache a
    constructor
    · rfl
    · rfl
  · intro s hp
    simp [validateGameState, hp]

/-- Witness for claim C10: even resetGame itself is rejected from the
reset state, and the reset state fails validation. -/
theorem C10_witness :
    (executeAction testEnv resetGame resetCache Action.resetGame).result.success = false ∧
    (validateGameState resetGame).isValid = false :=
  ⟨(C10_reset_state_rejects_all_actions.1 testEnv resetCache Action.resetGame).1,
    C10_reset_state_rejects_all_actions.2 resetGame rfl⟩

end Undercover
